import Mathlib

/-!
Verification of the rag-k8s plan / validate / gate / execute / audit core.

Shallow embedding of the `rag-k8s` pipeline of this repository:

* `runtime/validate.py` — `CommandValidator.validate` and its verb/resource
  extraction helpers;
* `runtime/exec.py` — `safe_exec` (the subprocess call itself is an external
  effect; its observable outcome is a parameter of the model);
* `runtime/logging.py` — `AgentLogger.log_action` and `AgentLogger._digest`;
* `agent/plan.py` — `MLXPlanner._parse_json_response` (regex/JSON extraction
  over model output is abstracted as a parameter, matching its role as a
  black-box parser of black-box generation output);
* `agent/tool.py` — `K8sExecTool.execute`, modelled from the validation step
  onward with the retrieval and planning collaborators abstracted into the
  `plan` argument, and with the effects (subprocess invocations, audit
  appends) reified as explicit lists.

Python strings are modelled as `List Char`.
-/

/-- Python `str` modelled as a list of characters. -/
abbrev PyStr := List Char

/-- Python `str.strip()`: drop whitespace from both ends. -/
def pyStrip (s : PyStr) : PyStr :=
  ((s.dropWhile Char.isWhitespace).reverse.dropWhile Char.isWhitespace).reverse

/-- Python `s.startswith(pre)`. -/
def pyStartsWith (s pre : PyStr) : Bool := pre.isPrefixOf s

/-- Python `pat in s` (substring containment). -/
def pyContains (s pat : PyStr) : Bool := decide (pat <:+: s)

/-- Helper for `pySplitWs`: accumulate the current word (reversed). -/
def splitWsAux : PyStr → PyStr → List PyStr
  | [], acc => if acc = [] then [] else [acc.reverse]
  | c :: cs, acc =>
    if c.isWhitespace then
      if acc = [] then splitWsAux cs [] else acc.reverse :: splitWsAux cs []
    else splitWsAux cs (c :: acc)

/-- Python `s.split()` with no argument: split on whitespace runs, no empties. -/
def pySplitWs (s : PyStr) : List PyStr := splitWsAux s []

/-- Python `s.rstrip("s")`: drop all trailing `s` characters. -/
def pyRstripS (s : PyStr) : PyStr := (s.reverse.dropWhile (fun c => c = 's')).reverse

/-- Fuel-driven body of Python `s.replace(pat, new)` (all occurrences,
left to right, non-overlapping). The fuel is an upper bound on the length
of `s`, so `pyReplace` below never exhausts it. -/
def pyReplaceFuel : Nat → PyStr → PyStr → PyStr → PyStr
  | 0, s, _, _ => s
  | fuel + 1, s, pat, new =>
    if pat ≠ [] ∧ pat.isPrefixOf s then new ++ pyReplaceFuel fuel (s.drop pat.length) pat new
    else
      match s with
      | [] => []
      | c :: cs => c :: pyReplaceFuel fuel cs pat new

/-- Python `s.replace(pat, new)` for a non-empty `pat` (the only way the
source calls it). -/
def pyReplace (s pat new : PyStr) : PyStr := pyReplaceFuel (s.length + 1) s pat new

/-- Python `repr` of a list of strings, as interpolated into f-strings:
`['get', 'logs']`. -/
def pyListRepr (xs : List PyStr) : PyStr :=
  "[".toList ++
    List.intercalate (", ".toList) (xs.map (fun x => "\x27".toList ++ x ++ "\x27".toList)) ++
    "]".toList

/-! ## runtime/validate.py -/

/-- `ValidationResult` from `runtime/validate.py` (constructor default:
`modified_command = None`). -/
structure ValidationResult where
  valid : Bool
  reasons : List PyStr
  modifiedCommand : Option PyStr := none
deriving DecidableEq

/-- One entry of `rbac["forbidden_combinations"]`. -/
structure ForbiddenCombo where
  verb : PyStr
  resource : PyStr
  reason : PyStr
deriving DecidableEq

/-- The RBAC allow-list document loaded at `CommandValidator` construction.
The validator treats it as opaque data, so the embedding is parametric in it. -/
structure Rbac where
  allowed_verbs : List PyStr
  allowed_resources : List PyStr
  namespace_scoped : Bool
  forbidden_combinations : List ForbiddenCombo
deriving DecidableEq

def kubectlStr : PyStr := "kubectl".toList
def fluxStr : PyStr := "flux".toList
def ghStr : PyStr := "gh".toList
def rolloutStr : PyStr := "rollout".toList
def deleteStr : PyStr := "delete".toList
def podStr : PyStr := "pod".toList
def deletePodStr : PyStr := "delete pod".toList
def dashStr : PyStr := "-".toList

/-- The comment substituted for `delete pod` by the guardrail. -/
def blockedAlternative : PyStr :=
  "# BLOCKED: Use \x27rollout restart deployment\x27 instead".toList

def mustStartReason : PyStr :=
  "Command must start with \x27kubectl\x27 or \x27flux\x27".toList

def namespaceReason : PyStr :=
  "Command must include namespace (-n or --namespace)".toList

def guardrailReason : PyStr :=
  "Replaced \x27delete pod\x27 with safer alternative suggestion".toList

def nsFlagShort : PyStr := "-n ".toList
def nsFlagLong : PyStr := "--namespace".toList
def nsFlagLongEq : PyStr := "--namespace=".toList

def verbNotAllowedReason (v : PyStr) (allowed : List PyStr) : PyStr :=
  "Verb \x27".toList ++ v ++ "\x27 not in allowlist: ".toList ++ pyListRepr allowed

def resourceNotAllowedReason (r : PyStr) (allowed : List PyStr) : PyStr :=
  "Resource \x27".toList ++ r ++ "\x27 not in allowlist: ".toList ++ pyListRepr allowed

def forbiddenComboReason (why : PyStr) : PyStr := "Forbidden: ".toList ++ why

/-- The fixed vocabulary of resource nouns in `_extract_resource_from_parts`. -/
def knownResourceNouns : List PyStr :=
  ["pod", "deployment", "statefulset", "daemonset", "node", "namespace",
   "service", "ingress", "configmap", "secret", "event"].map String.toList

/-- The cluster-scoped exemption list in `validate`. -/
def clusterScopedResources : List PyStr :=
  ["node", "namespace", "persistentvolume", "storageclass", "clusterrole",
   "clusterrolebinding"].map String.toList

/-- `verb_map` from `_extract_verb_resource`; every key maps to itself. -/
def verbMap : List (PyStr × PyStr) :=
  [("get", "get"), ("describe", "describe"), ("logs", "logs"), ("scale", "scale"),
   ("cordon", "cordon"), ("uncordon", "uncordon"), ("drain", "drain"),
   ("delete", "delete"), ("create", "create"), ("apply", "apply")].map
    (fun p => (p.1.toList, p.2.toList))

/-- Python `verb_map.get(verb, verb)`. -/
def verbMapLookup (v : PyStr) : PyStr :=
  match verbMap.find? (fun p => p.1 == v) with
  | some p => p.2
  | none => v

/-- `CommandValidator._extract_resource_from_parts`. -/
def extractResourceFromParts : List PyStr → Option PyStr
  | [] => none
  | part :: rest =>
    if pyStartsWith part dashStr then extractResourceFromParts rest
    else if part.contains '/' then some (part.takeWhile (fun c => c ≠ '/'))
    else if knownResourceNouns.contains part || knownResourceNouns.contains (pyRstripS part) then
      some (pyRstripS part)
    else extractResourceFromParts rest

/-- `CommandValidator._extract_verb_resource`. The `replace(cli, "", 1)`
calls are guarded by `startswith(cli)`, so they remove the leading prefix. -/
def extract_verb_resource (command : PyStr) : Option PyStr × Option PyStr :=
  let cmd0 := pyStrip command
  let cmd :=
    if pyStartsWith cmd0 kubectlStr then pyStrip (cmd0.drop kubectlStr.length)
    else if pyStartsWith cmd0 fluxStr then pyStrip (cmd0.drop fluxStr.length)
    else cmd0
  if pyStartsWith cmd rolloutStr ∧ (pySplitWs cmd).length ≥ 2 then
    (some rolloutStr, extractResourceFromParts ((pySplitWs cmd).drop 2))
  else
    match pySplitWs cmd with
    | [] => (none, none)
    | verb :: rest => (some (verbMapLookup verb), extractResourceFromParts rest)

/-- The body of `CommandValidator.validate` after the prefix gates (source
lines 59–90): verb/resource extraction, the four reason-accumulating
checks in source order, the `delete pod` guardrail rewrite, and the final
derivation of `valid` and `modified_command`. -/
def validateChecks (rbac : Rbac) (command : PyStr) : ValidationResult :=
  let vr := extract_verb_resource command
  let verb := vr.1
  let resource := vr.2
  let verbReasons :=
    match verb with
    | some v => if v ≠ [] ∧ v ∉ rbac.allowed_verbs then
        [verbNotAllowedReason v rbac.allowed_verbs] else []
    | none => []
  let resourceReasons :=
    match resource with
    | some r => if r ≠ [] ∧ r ∉ rbac.allowed_resources then
        [resourceNotAllowedReason r rbac.allowed_resources] else []
    | none => []
  let nsReasons :=
    if rbac.namespace_scoped then
      let has_namespace := pyContains command nsFlagShort ||
        pyContains command nsFlagLong || pyContains command nsFlagLongEq
      let resourceClusterScoped :=
        match resource with
        | some r => clusterScopedResources.contains r
        | none => false
      if !has_namespace && !resourceClusterScoped then [namespaceReason] else []
    else []
  let forbiddenReasons := rbac.forbidden_combinations.filterMap
    (fun f => if verb = some f.verb ∧ resource = some f.resource then
      some (forbiddenComboReason f.reason) else none)
  let guard :=
    if verb = some deleteStr ∧ resource = some podStr then
      (pyReplace command deletePodStr blockedAlternative, [guardrailReason])
    else (command, [])
  let reasons := verbReasons ++ resourceReasons ++ nsReasons ++ forbiddenReasons ++ guard.2
  ⟨decide (reasons.length = 0), reasons,
    if guard.1 ≠ command then some guard.1 else none⟩

/-- `CommandValidator.validate`. The `namespace` argument of the Python
method is accepted and, exactly as in the source, never used. -/
def validate (rbac : Rbac) (command : PyStr) (_namespaceArg : Option PyStr) :
    ValidationResult :=
  let cmd_start := pyStrip command
  if pyStartsWith cmd_start ghStr then ⟨true, [], none⟩
  else if ¬ (pyStartsWith cmd_start kubectlStr ∨ pyStartsWith cmd_start fluxStr) then
    ⟨false, [mustStartReason], none⟩
  else validateChecks rbac command

/-! ## runtime/logging.py -/

/-- The ellipsis marker inserted by `AgentLogger._digest`. -/
def digestMarker : PyStr := " [...] ".toList

/-- `AgentLogger._digest(text, max_len=200)`: the head/tail digest of a
possibly long text. -/
def digest (text : PyStr) (max_len : Nat) : PyStr :=
  if text = [] then []
  else if text.length ≤ max_len then text
  else text.take (max_len / 2) ++ digestMarker ++ text.drop (text.length - max_len / 2)

/-! ## runtime/exec.py -/

/-- The execution-result dictionary returned by `safe_exec`. The optional
`timeout` / `error` keys of the Python dict become a flag and an option,
with the same defaults `.get` would supply. -/
structure ExecResult where
  code : Int
  stdout : PyStr
  stderr : PyStr
  duration : Nat
  truncated : Bool
  timedOut : Bool := false
  errorMsg : Option PyStr := none
deriving DecidableEq

/-- The outcome of the underlying `subprocess.run` call, which is an
external effect: it completes with an exit code and raw output streams,
raises `TimeoutExpired`, or raises some other exception. -/
inductive RunOutcome where
  | completed (returncode : Int) (stdout stderr : PyStr)
  | expired
  | failed (message : PyStr)
deriving DecidableEq

/-- The truncation marker appended by `safe_exec`. -/
def truncMarker : PyStr := "\n... (truncated)".toList

def timedOutMsgPre : PyStr := "Command timed out after ".toList
def secondsSuffix : PyStr := "s".toList
def execErrorMsgPre : PyStr := "Execution error: ".toList

/-- Decimal rendering of a number, as Python string interpolation does. -/
def natToPyStr (n : Nat) : PyStr := (Nat.repr n).toList

/-- `safe_exec(cmd, timeout)` from `runtime/exec.py`, as a function of the
subprocess outcome. Wall-clock duration is an external observation and is
passed through as a parameter. -/
def safe_exec (outcome : RunOutcome) (timeout : Nat) (duration : Nat) : ExecResult :=
  match outcome with
  | .completed returncode out err =>
    let s1 := if out.length > 4000 then (out.take 4000 ++ truncMarker, true) else (out, false)
    let s2 := if err.length > 2000 then (err.take 2000 ++ truncMarker, true) else (err, s1.2)
    { code := returncode, stdout := s1.1, stderr := s2.1, duration := duration,
      truncated := s2.2, timedOut := false, errorMsg := none }
  | .expired =>
    { code := -1, stdout := [], stderr := timedOutMsgPre ++ natToPyStr timeout ++ secondsSuffix,
      duration := duration, truncated := false, timedOut := true, errorMsg := none }
  | .failed msg =>
    { code := -1, stdout := [], stderr := execErrorMsgPre ++ msg,
      duration := duration, truncated := false, timedOut := false, errorMsg := some msg }

/-! ## agent/plan.py -/

/-- A parsed plan dictionary. The planner requires `intent`, `namespace`,
`command`, `summary`; `target`, `selector` and `error` may be absent. The
`namespace` key is called `nspace` because `namespace` is a Lean keyword. -/
structure Plan where
  intent : PyStr
  nspace : PyStr
  target : Option PyStr := none
  selector : Option PyStr := none
  command : PyStr
  summary : PyStr
  error : Option PyStr := none
deriving DecidableEq

/-- The deterministic fallback plan built when both parse attempts fail. -/
def fallbackPlan : Plan :=
  { intent := "unknown".toList
  , nspace := "default".toList
  , target := none
  , selector := none
  , command := "# Failed to generate valid command".toList
  , summary := "JSON generation failed".toList
  , error := some ("Could not parse valid JSON from model output".toList) }

/-- `MLXPlanner._parse_json_response`. `extractPlan` abstracts one attempt:
regex-extracting the first balanced JSON object, `json.loads`, and the
required-keys check — `none` when any of those fail. The first attempt runs
on the first response; on failure the model is re-invoked once and the same
extraction runs on the retry response; on a second failure the fallback
plan is returned. -/
def parse_json_response (extractPlan : PyStr → Option Plan)
    (response retryResponse : PyStr) : Plan :=
  match extractPlan response with
  | some plan => plan
  | none =>
    match extractPlan retryResponse with
    | some plan => plan
    | none => fallbackPlan

/-! ## runtime/logging.py — log_action -/

/-- One JSONL record appended by `AgentLogger.log_action`. The timestamp is
real time and is not modelled; every other field of the Python dict is. -/
structure AuditEntry where
  level : PyStr
  operationId : PyStr
  intent : PyStr
  nspace : PyStr
  target : Option PyStr
  command : PyStr
  exitCode : Int
  duration : Nat
  stdoutDigest : PyStr
  stderrDigest : PyStr
  truncated : Bool
  timedOut : Bool
deriving DecidableEq

/-- `AgentLogger.log_action`: the record appended for one action. -/
def log_action (operationId : PyStr) (plan : Plan) (cmd : PyStr)
    (result : ExecResult) (level : PyStr) : AuditEntry :=
  { level := level
  , operationId := operationId
  , intent := plan.intent
  , nspace := plan.nspace
  , target := plan.target
  , command := cmd
  , exitCode := result.code
  , duration := result.duration
  , stdoutDigest := digest result.stdout 200
  , stderrDigest := digest result.stderr 200
  , truncated := result.truncated
  , timedOut := result.timedOut }

/-! ## agent/tool.py -/

/-- The `result` object of a successful (or dry-run) response. -/
structure ResultSummary where
  code : Int
  stdoutDigest : PyStr
  stderrDigest : PyStr
  duration : Nat
  truncated : Bool
deriving DecidableEq

/-- The response dictionary of `K8sExecTool.execute` from the validation
step onward. Absent dictionary keys are `none`. -/
structure ToolResponse where
  operationId : PyStr
  plan : Plan
  validationValid : Bool
  validationReasons : List PyStr
  status : Option PyStr
  message : Option PyStr
  result : Option ResultSummary
deriving DecidableEq

/-- The observable outcome of one pipeline run: the response plus the
reified effect traces — audit records appended and commands handed to
`safe_exec`. -/
structure PipelineOutcome where
  response : ToolResponse
  audit : List AuditEntry
  execCalls : List PyStr
deriving DecidableEq

def validationFailedStderr (reasons : List PyStr) : PyStr :=
  "Validation failed: ".toList ++ List.intercalate (", ".toList) reasons

def awaitingConfirmationStr : PyStr := "awaiting_confirmation".toList

def confirmationMsg : PyStr := "Command requires explicit confirmation before execution".toList

def dryRunMsgPre : PyStr := "[DRY RUN] Command would execute: ".toList

def infoLevel : PyStr := "INFO".toList
def errorLevel : PyStr := "ERROR".toList

/-- `K8sExecTool.execute`, from step 3 (validation) onward. Steps 1–2
(retrieval and planning) are the external collaborators of spec §6; their
outcome is the `plan` argument. `execFn` is the observable behaviour of
`safe_exec` for this invocation; every command passed to it is recorded in
`execCalls`. -/
def execute (rbac : Rbac) (execFn : PyStr → ExecResult) (operationId : PyStr)
    (plan : Plan) (confirm dryRun : Bool) (nspace : PyStr) : PipelineOutcome :=
  let validation := validate rbac plan.command (some nspace)
  if validation.valid = false then
    let result : ExecResult :=
      { code := -1, stdout := [], stderr := validationFailedStderr validation.reasons,
        duration := 0, truncated := false, timedOut := false, errorMsg := none }
    { response :=
        { operationId := operationId, plan := plan, validationValid := false,
          validationReasons := validation.reasons, status := none, message := none,
          result := none }
      , audit := [log_action operationId plan plan.command result errorLevel]
      , execCalls := [] }
  else if confirm then
    { response :=
        { operationId := operationId, plan := plan, validationValid := true,
          validationReasons := [], status := some awaitingConfirmationStr,
          message := some confirmationMsg, result := none }
      , audit := [], execCalls := [] }
  else
    let step :=
      if dryRun then
        (({ code := 0, stdout := dryRunMsgPre ++ plan.command, stderr := [], duration := 0,
            truncated := false, timedOut := false, errorMsg := none } : ExecResult),
         ([] : List PyStr))
      else (execFn plan.command, [plan.command])
    let result := step.1
    let level := if result.code = 0 then infoLevel else errorLevel
    { response :=
        { operationId := operationId, plan := plan, validationValid := true,
          validationReasons := [], status := none, message := none,
          result := some
            { code := result.code
            , stdoutDigest := digest result.stdout 200
            , stderrDigest := digest result.stderr 200
            , duration := result.duration
            , truncated := result.truncated } }
      , audit := [log_action operationId plan plan.command result level]
      , execCalls := step.2 }

/-! ## Sample policy data for concrete witnesses -/

/-- Modelled from the spec: the RBAC allow-list document
(`org/rbac-allowlist.yaml`) is not among the provided sources, only the
code that loads it. Its contents here follow spec §3/§4.2 and the closed
vocabularies of the planner prompt and the tool input schema: allowed
verbs, allowed resource types, the namespace-scope flag, and a forbidden
verb+resource pair with a human-readable reason. Every claim theorem below
is parametric in the policy; this sample only instantiates witnesses. -/
def rbacSample : Rbac :=
  { allowed_verbs := ["get", "describe", "logs", "scale", "rollout", "cordon",
      "uncordon", "drain"].map String.toList
  , allowed_resources := ["deployment", "pod", "statefulset", "node", "service",
      "namespace", "kustomization", "job", "configmap"].map String.toList
  , namespace_scoped := true
  , forbidden_combinations :=
      [{ verb := "delete".toList, resource := "pod".toList,
         reason := "Deleting pods directly is disallowed; use rollout restart".toList }] }

/-! ## Helper lemmas -/

lemma pyContains_iff (s pat : PyStr) : pyContains s pat = true ↔ pat <:+: s := by
  simp [pyContains]

lemma head_of_pyStartsWith (s pre : PyStr) (c : Char) (hc : pre.head? = some c)
    (h : pyStartsWith s pre = true) : s.head? = some c := by
  obtain ⟨t, rfl⟩ := List.isPrefixOf_iff_prefix.mp h
  cases pre with
  | nil => exact absurd hc (by simp)
  | cons a as => simpa using hc

lemma gh_false_of_cli (s : PyStr)
    (h : pyStartsWith s kubectlStr = true ∨ pyStartsWith s fluxStr = true) :
    pyStartsWith s ghStr = false := by
  cases hgh : pyStartsWith s ghStr with
  | false => rfl
  | true =>
    have hg : s.head? = some 'g' := head_of_pyStartsWith s ghStr 'g' (by decide) hgh
    rcases h with hk | hf
    · have hk2 := head_of_pyStartsWith s kubectlStr 'k' (by decide) hk
      rw [hg] at hk2
      exact absurd hk2 (by decide)
    · have hf2 := head_of_pyStartsWith s fluxStr 'f' (by decide) hf
      rw [hg] at hf2
      exact absurd hf2 (by decide)

lemma validate_gh_eq (rbac : Rbac) (cmd : PyStr) (ns : Option PyStr)
    (hgh : pyStartsWith (pyStrip cmd) ghStr = true) :
    validate rbac cmd ns = ⟨true, [], none⟩ := by
  simp [validate, hgh]

lemma validate_badcli_eq (rbac : Rbac) (cmd : PyStr) (ns : Option PyStr)
    (hgh : pyStartsWith (pyStrip cmd) ghStr = false)
    (hk : pyStartsWith (pyStrip cmd) kubectlStr = false)
    (hf : pyStartsWith (pyStrip cmd) fluxStr = false) :
    validate rbac cmd ns = ⟨false, [mustStartReason], none⟩ := by
  simp [validate, hgh, hk, hf]

lemma validate_main_eq (rbac : Rbac) (cmd : PyStr) (ns : Option PyStr)
    (hcli : pyStartsWith (pyStrip cmd) kubectlStr = true ∨
      pyStartsWith (pyStrip cmd) fluxStr = true) :
    validate rbac cmd ns = validateChecks rbac cmd := by
  have hgh := gh_false_of_cli _ hcli
  rcases hcli with h | h <;> simp [validate, hgh, h]

lemma pyReplaceFuel_has_new (pat new : PyStr) (hpat : pat ≠ []) :
    ∀ fuel s, s.length ≤ fuel → pat <:+: s → new <:+: pyReplaceFuel fuel s pat new := by
  intro fuel
  induction fuel with
  | zero =>
    intro s hlen hinf
    have hs : s = [] := List.eq_nil_of_length_eq_zero (Nat.le_zero.mp hlen)
    subst hs
    exact absurd (List.infix_nil.mp hinf) hpat
  | succ fuel ih =>
    intro s hlen hinf
    by_cases hc : pat ≠ [] ∧ pat.isPrefixOf s
    · cases s with
      | nil => exact absurd (List.prefix_nil.mp (List.isPrefixOf_iff_prefix.mp hc.2)) hpat
      | cons c cs =>
        rw [pyReplaceFuel, if_pos hc]
        exact (List.prefix_append new _).isInfix
    · have hnp : pat.isPrefixOf s = false := by
        cases hps : pat.isPrefixOf s
        · rfl
        · exact absurd ⟨hpat, hps⟩ hc
      cases s with
      | nil => exact absurd (List.infix_nil.mp hinf) hpat
      | cons c cs =>
        have hrec : pat <:+: cs := by
          rcases List.infix_cons_iff.mp hinf with hp | hi
          · exact absurd (List.isPrefixOf_iff_prefix.mpr hp) (by simp [hnp])
          · exact hi
        have hlen2 : cs.length ≤ fuel := by
          simp only [List.length_cons] at hlen
          omega
        rw [pyReplaceFuel, if_neg hc]
        exact List.infix_cons (ih cs hlen2 hrec)

lemma pyReplaceFuel_ne (pat new : PyStr) (hhead : pat.head? ≠ new.head?)
    (hpat : pat ≠ []) (hnew : new ≠ []) :
    ∀ fuel s, s.length ≤ fuel → pat <:+: s → pyReplaceFuel fuel s pat new ≠ s := by
  intro fuel
  induction fuel with
  | zero =>
    intro s hlen hinf
    have hs : s = [] := List.eq_nil_of_length_eq_zero (Nat.le_zero.mp hlen)
    subst hs
    exact absurd (List.infix_nil.mp hinf) hpat
  | succ fuel ih =>
    intro s hlen hinf
    by_cases hc : pat ≠ [] ∧ pat.isPrefixOf s
    · cases s with
      | nil => exact absurd (List.prefix_nil.mp (List.isPrefixOf_iff_prefix.mp hc.2)) hpat
      | cons c cs =>
        rw [pyReplaceFuel, if_pos hc]
        cases hp : pat with
        | nil => exact absurd hp hpat
        | cons ph pt =>
          cases hn : new with
          | nil => exact absurd hn hnew
          | cons nh nt =>
            have hpc : ph = c := by
              have h2 := List.isPrefixOf_iff_prefix.mp hc.2
              rw [hp] at h2
              exact (List.cons_prefix_cons.mp h2).1
            intro heq
            simp only [List.cons_append, List.cons.injEq] at heq
            exact hhead (by simp [hp, hn, hpc, heq.1])
    · have hnp : pat.isPrefixOf s = false := by
        cases hps : pat.isPrefixOf s
        · rfl
        · exact absurd ⟨hpat, hps⟩ hc
      cases s with
      | nil => exact absurd (List.infix_nil.mp hinf) hpat
      | cons c cs =>
        have hrec : pat <:+: cs := by
          rcases List.infix_cons_iff.mp hinf with hp | hi
          · exact absurd (List.isPrefixOf_iff_prefix.mpr hp) (by simp [hnp])
          · exact hi
        have hlen2 : cs.length ≤ fuel := by
          simp only [List.length_cons] at hlen
          omega
        rw [pyReplaceFuel, if_neg hc]
        intro heq
        simp only [List.cons.injEq] at heq
        exact ih cs hlen2 hrec heq.2

lemma pyReplace_guardrail_ne (s : PyStr) (h : pyContains s deletePodStr = true) :
    pyReplace s deletePodStr blockedAlternative ≠ s :=
  pyReplaceFuel_ne deletePodStr blockedAlternative (by decide) (by decide) (by decide)
    (s.length + 1) s (Nat.le_succ _) ((pyContains_iff s deletePodStr).mp h)

lemma pyReplace_guardrail_marks (s : PyStr) (h : pyContains s deletePodStr = true) :
    pyContains (pyReplace s deletePodStr blockedAlternative) blockedAlternative = true :=
  (pyContains_iff _ _).mpr
    (pyReplaceFuel_has_new deletePodStr blockedAlternative (by decide)
      (s.length + 1) s (Nat.le_succ _) ((pyContains_iff s deletePodStr).mp h))

lemma validateChecks_valid_eq (rbac : Rbac) (cmd : PyStr) :
    (validateChecks rbac cmd).valid =
      decide ((validateChecks rbac cmd).reasons.length = 0) := rfl

lemma validateChecks_valid_iff (rbac : Rbac) (cmd : PyStr) :
    (validateChecks rbac cmd).valid = true ↔ (validateChecks rbac cmd).reasons = [] := by
  rw [validateChecks_valid_eq]
  simp [List.length_eq_zero]

lemma validateChecks_modified_ne (rbac : Rbac) (cmd : PyStr) (m : PyStr)
    (h : (validateChecks rbac cmd).modifiedCommand = some m) : m ≠ cmd := by
  simp only [validateChecks] at h
  split at h
  all_goals
    dsimp only at h
    split at h
    next hne =>
      injection h with h2
      exact h2 ▸ hne
    next => exact absurd h (by simp)

lemma validateChecks_delete_pod (rbac : Rbac) (cmd : PyStr)
    (hvr : extract_verb_resource cmd = (some deleteStr, some podStr)) :
    (validateChecks rbac cmd).valid = false ∧
    (validateChecks rbac cmd).modifiedCommand =
      (if pyReplace cmd deletePodStr blockedAlternative ≠ cmd
       then some (pyReplace cmd deletePodStr blockedAlternative) else none) := by
  simp only [validateChecks, hvr]
  constructor
  · simp [List.length_eq_zero]
  · simp

/-! ## Concrete inputs for witnesses and counterexamples -/

def cmdBad : PyStr := "rm -rf /tmp".toList
def cmdGh : PyStr := "gh pr list".toList
def cmdDeletePod : PyStr := "kubectl delete pod my-pod -n prod".toList
def cmdDeleteReordered : PyStr := "kubectl delete -n prod pod my-pod".toList
def cmdGetPod : PyStr := "kubectl get pod -n prod".toList

/-- A deterministic stand-in for the observable behaviour of one
`safe_exec` invocation, used to instantiate pipeline theorems. -/
def execFnSample : PyStr → ExecResult := fun c =>
  { code := 0, stdout := c, stderr := [], duration := 1, truncated := false }

def opIdSample : PyStr := "3f2c8a1e-demo".toList

/-- A plan whose command passes `validate` under `rbacSample`. -/
def planSampleOk : Plan :=
  { intent := "status".toList
  , nspace := "prod".toList
  , target := some ("pod/api".toList)
  , selector := none
  , command := cmdGetPod
  , summary := "Get pod api in prod".toList
  , error := none }

/-! ## Claims about the validator -/

/-- C2 (counterexample): at the concrete non-CLI command `rm -rf /tmp`,
`validate` returns invalid with exactly one reason, but that reason does
not mention the permitted `gh` prefix — so the reason does not mention all
the allowed prefixes, refuting the claim as stated. -/
theorem C2_counterexample :
    (validate rbacSample cmdBad none).valid = false ∧
    (validate rbacSample cmdBad none).reasons = [mustStartReason] ∧
    pyContains mustStartReason ghStr = false := by decide

/-- C2 (amended): for every command string that does not begin (after
stripping) with any of the permitted prefixes `gh`, `kubectl`, `flux`,
`validate` returns invalid with exactly the one fixed reason, and that
reason mentions the `kubectl` and `flux` prefixes (though not `gh`). -/
theorem C2_amended (rbac : Rbac) (cmd : PyStr) (ns : Option PyStr)
    (hgh : pyStartsWith (pyStrip cmd) ghStr = false)
    (hk : pyStartsWith (pyStrip cmd) kubectlStr = false)
    (hf : pyStartsWith (pyStrip cmd) fluxStr = false) :
    validate rbac cmd ns = ⟨false, [mustStartReason], none⟩ ∧
    pyContains mustStartReason kubectlStr = true ∧
    pyContains mustStartReason fluxStr = true :=
  ⟨validate_badcli_eq rbac cmd ns hgh hk hf, by decide, by decide⟩

/-- Witness for C2: the amended theorem applied at `rm -rf /tmp`. -/
theorem C2_witness :
    validate rbacSample cmdBad none = ⟨false, [mustStartReason], none⟩ :=
  (C2_amended rbacSample cmdBad none (by decide) (by decide) (by decide)).1

/-- C3: every command whose stripped form starts with `gh` is declared
valid with no reasons and no modified command, and the result does not
depend on the policy data or the namespace argument — no verb, resource,
namespace or forbidden-combination check runs. -/
theorem C3_gh_short_circuit (rbac rbac2 : Rbac) (cmd : PyStr) (ns ns2 : Option PyStr)
    (hgh : pyStartsWith (pyStrip cmd) ghStr = true) :
    validate rbac cmd ns = ⟨true, [], none⟩ ∧
    validate rbac cmd ns = validate rbac2 cmd ns2 := by
  rw [validate_gh_eq rbac cmd ns hgh, validate_gh_eq rbac2 cmd ns2 hgh]
  exact ⟨rfl, rfl⟩

/-- Witness for C3: `gh pr list` is accepted unconditionally. -/
theorem C3_witness : validate rbacSample cmdGh none = ⟨true, [], none⟩ :=
  (C3_gh_short_circuit rbacSample rbacSample cmdGh none none (by decide)).1

/-- C5 (counterexample): `kubectl delete -n prod pod my-pod` extracts
verb `delete` and resource `pod`, and `validate` rejects it, but since the
literal substring `delete pod` does not occur, the rewrite is a no-op and
`modifiedCommand` is absent — refuting the claim that every delete-pod
command carries the safe-alternative rewrite. -/
theorem C5_counterexample :
    extract_verb_resource cmdDeleteReordered = (some deleteStr, some podStr) ∧
    (validate rbacSample cmdDeleteReordered none).valid = false ∧
    (validate rbacSample cmdDeleteReordered none).modifiedCommand = none := by decide

/-- C5 (amended): every kubectl/flux command whose extracted verb is
`delete` and resource is `pod` is invalid, regardless of namespace flags;
and whenever the literal substring `delete pod` occurs in the command (as
in the spec's `... delete pod ... -n prod` shape), `modifiedCommand` is
present and contains the safe-alternative comment. -/
theorem C5_amended (rbac : Rbac) (cmd : PyStr) (ns : Option PyStr)
    (hcli : pyStartsWith (pyStrip cmd) kubectlStr = true ∨
      pyStartsWith (pyStrip cmd) fluxStr = true)
    (hvr : extract_verb_resource cmd = (some deleteStr, some podStr)) :
    (validate rbac cmd ns).valid = false ∧
    (pyContains cmd deletePodStr = true →
      ∃ m, (validate rbac cmd ns).modifiedCommand = some m ∧
        pyContains m blockedAlternative = true) := by
  rw [validate_main_eq rbac cmd ns hcli]
  obtain ⟨hvalid, hmod⟩ := validateChecks_delete_pod rbac cmd hvr
  refine ⟨hvalid, fun hcont => ?_⟩
  rw [hmod, if_pos (pyReplace_guardrail_ne cmd hcont)]
  exact ⟨_, rfl, pyReplace_guardrail_marks cmd hcont⟩

/-- Witness for C5: the amended theorem applied at
`kubectl delete pod my-pod -n prod`. -/
theorem C5_witness :
    ∃ m, (validate rbacSample cmdDeletePod none).modifiedCommand = some m ∧
      pyContains m blockedAlternative = true :=
  (C5_amended rbacSample cmdDeletePod none (by decide) (by decide)).2 (by decide)

/-- C7: for every policy, command and namespace argument, the result of
`validate` satisfies `valid = true` exactly when `reasons` is empty, and
`modifiedCommand`, when present, differs from the submitted command. -/
theorem C7_validation_invariant (rbac : Rbac) (cmd : PyStr) (ns : Option PyStr) :
    ((validate rbac cmd ns).valid = true ↔ (validate rbac cmd ns).reasons = []) ∧
    ∀ m, (validate rbac cmd ns).modifiedCommand = some m → m ≠ cmd := by
  by_cases hgh : pyStartsWith (pyStrip cmd) ghStr = true
  · rw [validate_gh_eq rbac cmd ns hgh]
    exact ⟨by simp, by intro m h; simp at h⟩
  · have hgh2 : pyStartsWith (pyStrip cmd) ghStr = false := by simpa using hgh
    by_cases hk : pyStartsWith (pyStrip cmd) kubectlStr = true
    · rw [validate_main_eq rbac cmd ns (Or.inl hk)]
      exact ⟨validateChecks_valid_iff rbac cmd, fun m h => validateChecks_modified_ne rbac cmd m h⟩
    · by_cases hf : pyStartsWith (pyStrip cmd) fluxStr = true
      · rw [validate_main_eq rbac cmd ns (Or.inr hf)]
        exact ⟨validateChecks_valid_iff rbac cmd, fun m h => validateChecks_modified_ne rbac cmd m h⟩
      · have hk2 : pyStartsWith (pyStrip cmd) kubectlStr = false := by simpa using hk
        have hf2 : pyStartsWith (pyStrip cmd) fluxStr = false := by simpa using hf
        rw [validate_badcli_eq rbac cmd ns hgh2 hk2 hf2]
        exact ⟨by simp, by intro m h; simp at h⟩

/-- Witness for C7: at `kubectl delete pod my-pod -n prod` the invariant
instances evaluate: the rewrite differs from the input command. -/
theorem C7_witness :
    pyReplace cmdDeletePod deletePodStr blockedAlternative ≠ cmdDeletePod :=
  (C7_validation_invariant rbacSample cmdDeletePod none).2 _ (by decide)

/-! ## Claims about planner fallback, digest and executor -/

/-- C6: whenever JSON extraction fails on both the first response and the
retry, the planner returns the deterministic fallback plan — intent
`unknown`, namespace `default`, the placeholder failure command, and the
error field set — and `validate` rejects that fallback command under every
policy. -/
theorem C6_fallback (extractPlan : PyStr → Option Plan) (r1 r2 : PyStr)
    (rbac : Rbac) (ns : Option PyStr)
    (h1 : extractPlan r1 = none) (h2 : extractPlan r2 = none) :
    parse_json_response extractPlan r1 r2 = fallbackPlan ∧
    (parse_json_response extractPlan r1 r2).intent = ("unknown".toList) ∧
    (parse_json_response extractPlan r1 r2).nspace = ("default".toList) ∧
    (parse_json_response extractPlan r1 r2).error.isSome = true ∧
    (validate rbac (parse_json_response extractPlan r1 r2).command ns).valid = false := by
  have hp : parse_json_response extractPlan r1 r2 = fallbackPlan := by
    simp [parse_json_response, h1, h2]
  refine ⟨hp, ?_, ?_, ?_, ?_⟩ <;> rw [hp]
  · rfl
  · rfl
  · rfl
  · rw [validate_badcli_eq rbac fallbackPlan.command ns (by decide) (by decide) (by decide)]

/-- Witness for C6: an extraction that always fails yields the fallback. -/
theorem C6_witness :
    parse_json_response (fun _ => none) [] [] = fallbackPlan :=
  (C6_fallback (fun _ => none) [] [] rbacSample none rfl rfl).1

/-- C8: the digest is the identity on any text of length at most 200; on
longer text it is the first 100 characters and the last 100 characters
joined by the ellipsis marker, its length is bounded by the cap plus the
marker length, and the two halves are a prefix resp. suffix of the
original text. -/
theorem C8_digest (text : PyStr) :
    (text.length ≤ 200 → digest text 200 = text) ∧
    (200 < text.length →
      digest text 200 = text.take 100 ++ digestMarker ++ text.drop (text.length - 100) ∧
      (digest text 200).length ≤ 200 + digestMarker.length ∧
      text.take 100 <+: text ∧
      text.drop (text.length - 100) <:+ text ∧
      (text.take 100).length = 100 ∧
      (text.drop (text.length - 100)).length = 100) := by
  have hm : digestMarker.length = 7 := by decide
  constructor
  · intro h
    by_cases he : text = []
    · rw [digest, if_pos he, he]
    · rw [digest, if_neg he, if_pos h]
  · intro h
    have hne : text ≠ [] := by
      intro e
      rw [e] at h
      simp at h
    have hgt : ¬ text.length ≤ 200 := by omega
    have heq : digest text 200 =
        text.take 100 ++ digestMarker ++ text.drop (text.length - 100) := by
      rw [digest, if_neg hne, if_neg hgt]
    have hlen : (digest text 200).length = 207 := by
      rw [heq]
      simp only [List.length_append, List.length_take, List.length_drop, hm]
      omega
    refine ⟨heq, ?_, List.take_prefix 100 text, List.drop_suffix _ text, ?_, ?_⟩
    · rw [hlen, hm]
    · rw [List.length_take]
      omega
    · rw [List.length_drop]
      omega

/-- Witness for C8: the digest of a 300-character text is bounded by the
cap plus the marker length. -/
theorem C8_witness :
    (digest (List.replicate 300 'a') 200).length ≤ 200 + digestMarker.length :=
  ((C8_digest (List.replicate 300 'a')).2 (by rw [List.length_replicate]; omega)).2.1

/-- Shape of `safe_exec` on a normally completed subprocess: exit code
passed through, each stream truncated past its cap with the marker
appended, and `truncated` set when either stream was cut. -/
lemma safe_exec_completed (rc : Int) (out err : PyStr) (t d : Nat) :
    safe_exec (.completed rc out err) t d =
      { code := rc
      , stdout := if 4000 < out.length then out.take 4000 ++ truncMarker else out
      , stderr := if 2000 < err.length then err.take 2000 ++ truncMarker else err
      , duration := d
      , truncated := decide (4000 < out.length) || decide (2000 < err.length)
      , timedOut := false
      , errorMsg := none } := by
  simp only [safe_exec]
  by_cases h1 : 4000 < out.length <;> by_cases h2 : 2000 < err.length <;>
    simp [h1, h2]

/-- C4 (counterexample): a normally completed execution with a
4001-character stdout yields a returned stdout longer than the configured
4000-character cap (the truncation marker pushes it to 4016) — refuting
the claim that returned output never exceeds the caps. -/
theorem C4_counterexample :
    4000 < (safe_exec (RunOutcome.completed 0 (List.replicate 4001 'x') []) 15 0).stdout.length := by
  rw [safe_exec_completed]
  have hr : (List.replicate 4001 'x').length = 4001 := List.length_replicate 4001 'x'
  dsimp only
  rw [if_pos (by omega)]
  rw [List.length_append, List.length_take, hr]
  have hm : truncMarker.length = 16 := by decide
  omega

/-- C4 (amended): for every normally completed execution, the returned
stdout and stderr never exceed their caps plus the 16-character truncation
marker; streams within the cap are returned verbatim, longer streams are
cut at the cap with the marker appended, and `truncated` is set exactly
when either stream was cut. -/
theorem C4_amended (rc : Int) (out err : PyStr) (t d : Nat) :
    (safe_exec (.completed rc out err) t d).stdout.length ≤ 4000 + truncMarker.length ∧
    (safe_exec (.completed rc out err) t d).stderr.length ≤ 2000 + truncMarker.length ∧
    (out.length ≤ 4000 → (safe_exec (.completed rc out err) t d).stdout = out) ∧
    (4000 < out.length →
      (safe_exec (.completed rc out err) t d).stdout = out.take 4000 ++ truncMarker) ∧
    (err.length ≤ 2000 → (safe_exec (.completed rc out err) t d).stderr = err) ∧
    (2000 < err.length →
      (safe_exec (.completed rc out err) t d).stderr = err.take 2000 ++ truncMarker) ∧
    ((safe_exec (.completed rc out err) t d).truncated = true ↔
      4000 < out.length ∨ 2000 < err.length) := by
  rw [safe_exec_completed]
  have hm : truncMarker.length = 16 := by decide
  refine ⟨?_, ?_, ?_, ?_, ?_, ?_, ?_⟩
  · dsimp only
    by_cases h : 4000 < out.length
    · rw [if_pos h, List.length_append, List.length_take, hm]
      omega
    · rw [if_neg h, hm]
      omega
  · dsimp only
    by_cases h : 2000 < err.length
    · rw [if_pos h, List.length_append, List.length_take, hm]
      omega
    · rw [if_neg h, hm]
      omega
  · intro h
    dsimp only
    rw [if_neg (by omega)]
  · intro h
    dsimp only
    rw [if_pos h]
  · intro h
    dsimp only
    rw [if_neg (by omega)]
  · intro h
    dsimp only
    rw [if_pos h]
  · simp

/-- Witness for C4: the amended theorem applied at the 4001-character
stdout: the returned stdout is the 4000-character cut plus the marker. -/
theorem C4_witness :
    (safe_exec (RunOutcome.completed 0 (List.replicate 4001 'x') []) 15 0).stdout =
      (List.replicate 4001 'x').take 4000 ++ truncMarker :=
  (C4_amended 0 (List.replicate 4001 'x') [] 15 0).2.2.2.1 (by rw [List.length_replicate]; omega)

/-! ## Claims about the pipeline -/

/-- C1: in every pipeline run, a command is handed to the executor only if
it is the plan's command, the validator accepted it, and the confirm gate
did not fire; when validation fails or confirm is set, no command is ever
handed to the executor. -/
theorem C1_exec_only_validated (rbac : Rbac) (execFn : PyStr → ExecResult)
    (opId : PyStr) (plan : Plan) (confirm dryRun : Bool) (ns : PyStr) :
    (∀ c ∈ (execute rbac execFn opId plan confirm dryRun ns).execCalls,
      c = plan.command ∧ (validate rbac plan.command (some ns)).valid = true ∧
        confirm = false) ∧
    ((validate rbac plan.command (some ns)).valid = false →
      (execute rbac execFn opId plan confirm dryRun ns).execCalls = []) ∧
    (confirm = true → (execute rbac execFn opId plan confirm dryRun ns).execCalls = []) := by
  by_cases hv : (validate rbac plan.command (some ns)).valid = false
  · refine ⟨?_, fun _ => ?_, fun _ => ?_⟩ <;> simp [execute, hv]
  · have hv2 : (validate rbac plan.command (some ns)).valid = true := by
      cases h2 : (validate rbac plan.command (some ns)).valid
      · exact absurd h2 hv
      · rfl
    by_cases hc : confirm = true
    · refine ⟨?_, fun h => absurd h hv, fun _ => ?_⟩ <;> simp [execute, hv2, hc]
    · have hc2 : confirm = false := by simpa using hc
      by_cases hd : dryRun = true
      · refine ⟨?_, fun h => absurd h hv, fun h => absurd h hc⟩
        simp [execute, hv2, hc2, hd]
      · have hd2 : dryRun = false := by simpa using hd
        refine ⟨?_, fun h => absurd h hv, fun h => absurd h hc⟩
        intro c hmem
        simp [execute, hv2, hc2, hd2] at hmem
        exact ⟨hmem, hv2, hc2⟩

/-- Witness for C1: with the (invalid) fallback plan, no command reaches
the executor. -/
theorem C1_witness :
    (execute rbacSample execFnSample opIdSample fallbackPlan false false
      ("default".toList)).execCalls = [] :=
  (C1_exec_only_validated rbacSample execFnSample opIdSample fallbackPlan false false
    ("default".toList)).2.1 (by decide)

/-- C9: when the plan's command validates and confirm is set, the pipeline
halts awaiting confirmation: status is `awaiting_confirmation`, the
response carries no result (hence no exit code), no audit record is
appended, and no command reaches the executor. -/
theorem C9_confirm_halts (rbac : Rbac) (execFn : PyStr → ExecResult)
    (opId : PyStr) (plan : Plan) (dryRun : Bool) (ns : PyStr)
    (hv : (validate rbac plan.command (some ns)).valid = true) :
    (execute rbac execFn opId plan true dryRun ns).response.status =
      some awaitingConfirmationStr ∧
    (execute rbac execFn opId plan true dryRun ns).response.result = none ∧
    (execute rbac execFn opId plan true dryRun ns).audit = [] ∧
    (execute rbac execFn opId plan true dryRun ns).execCalls = [] := by
  refine ⟨?_, ?_, ?_, ?_⟩ <;> simp [execute, hv]

/-- Witness for C9: a valid plan with confirm set halts the pipeline. -/
theorem C9_witness :
    (execute rbacSample execFnSample opIdSample planSampleOk true false
      ("prod".toList)).response.status = some awaitingConfirmationStr :=
  (C9_confirm_halts rbacSample execFnSample opIdSample planSampleOk false
    ("prod".toList) (by decide)).1

/-- C10: when the plan's command fails validation, the response carries
the plan, `valid = false` with the validator's reasons, and a null result,
and exactly one audit record is written — an ERROR-level record for the
rejected operation naming its id and command. -/
theorem C10_invalid_audited (rbac : Rbac) (execFn : PyStr → ExecResult)
    (opId : PyStr) (plan : Plan) (confirm dryRun : Bool) (ns : PyStr)
    (hv : (validate rbac plan.command (some ns)).valid = false) :
    (execute rbac execFn opId plan confirm dryRun ns).response.plan = plan ∧
    (execute rbac execFn opId plan confirm dryRun ns).response.validationValid = false ∧
    (execute rbac execFn opId plan confirm dryRun ns).response.validationReasons =
      (validate rbac plan.command (some ns)).reasons ∧
    (execute rbac execFn opId plan confirm dryRun ns).response.result = none ∧
    (execute rbac execFn opId plan confirm dryRun ns).audit.length = 1 ∧
    ∀ e ∈ (execute rbac execFn opId plan confirm dryRun ns).audit,
      e.level = errorLevel ∧ e.operationId = opId ∧ e.command = plan.command := by
  refine ⟨?_, ?_, ?_, ?_, ?_, ?_⟩ <;> simp [execute, hv, log_action]

/-- Witness for C10: the rejected fallback plan produces exactly one audit
record. -/
theorem C10_witness :
    (execute rbacSample execFnSample opIdSample fallbackPlan false false
      ("prod".toList)).audit.length = 1 :=
  (C10_invalid_audited rbacSample execFnSample opIdSample fallbackPlan false false
    ("prod".toList) (by decide)).2.2.2.2.1
